import Mathlib

/-!
Shallow embedding of the natural-language → SQL translation pipeline of
`src/main.js` (Electron main process): the response sanitizer inlined in
`makeOllamaRequest`, the pattern-match fallback `translateSimplePattern`,
the command cache handlers `get-sql-for-command` /
`insert-sql-into-commands-file`, the connectivity prober
`testOllamaConnection` with its `test-ollama-connection` handler, and the
`translate-to-sql` orchestrator.

JS strings are modelled as Lean `String` / `List Char`; the regex
operations of the source are hand-translated into executable functions on
`List Char` below, following the exact leftmost-match and backtracking
semantics of the JS regexes involved.  File-system state (the
`commands.txt` cache) is modelled as the file's content string; network
effects are modelled by outcome oracles passed to the handler functions.
Logging (`appendToLLMLog`, console output) is a side effect with no
influence on returned values and is not modelled.
-/

namespace SqlTable

/-- JS whitespace class `\s` (restricted to its ASCII members, which is the
alphabet relevant here): space, tab, newline, carriage return, vertical
tab, form feed. -/
def jsWs (c : Char) : Bool :=
  c = ' ' || c = '\t' || c = '\n' || c = '\r' || c = '\x0b' || c = '\x0c'

/-- Drop the longest suffix whose characters satisfy `p` (mirror of
`List.dropWhile` at the right end). -/
def dropTrail (p : Char → Bool) : List Char → List Char
  | [] => []
  | c :: cs =>
    match dropTrail p cs with
    | [] => if p c then [] else [c]
    | r => c :: r

/-- JS `String.prototype.trim` on the character list. -/
def jsTrimL (l : List Char) : List Char :=
  dropTrail jsWs (l.dropWhile jsWs)

/-- `startsWithSeq pat l` : does `l` start with `pat`? -/
def startsWithSeq : List Char → List Char → Bool
  | [], _ => true
  | _ :: _, [] => false
  | p :: ps, c :: cs => p = c && startsWithSeq ps cs

/-- `endsWithSeq pat l` : does `l` end with `pat`? -/
def endsWithSeq (pat l : List Char) : Bool :=
  startsWithSeq pat.reverse l.reverse

/-- JS `haystack.includes(pat)` (substring test). -/
def hasSub (pat : List Char) : List Char → Bool
  | [] => pat.isEmpty
  | c :: cs => startsWithSeq pat (c :: cs) || hasSub pat cs

/-- The backtick character (written by code to keep it out of the SQL
fence markers below). -/
def tick : Char := '\x60'

/-- One backtick satisfies the `` `+ `` classes of the source regexes. -/
def isTick (c : Char) : Bool := c = tick

/-- The triple-backtick fence marker. -/
def fence : List Char := [tick, tick, tick]

/-! ## Response sanitizer (`src/main.js` lines 776–805, inlined in
`makeOllamaRequest`) -/

/-- `replace(/^```\s*sql\s*\n?/i, '')`: if the string starts with the
fence, all following whitespace, then `sql` (case-insensitive), the
matched part — including the whitespace run after `sql`, which the greedy
`\s*` consumes whole (the trailing `\n?` then matches empty) — is
removed; otherwise the string is unchanged. -/
def stripLeadFenceSql (l : List Char) : List Char :=
  if startsWithSeq fence l then
    let w := (l.drop 3).dropWhile jsWs
    if (w.take 3).map Char.toLower = ['s', 'q', 'l'] then (w.drop 3).dropWhile jsWs
    else l
  else l

/-- `replace(/^```\s*\n?/, '')`: strip a leading fence and the whitespace
run after it. -/
def stripLeadFence (l : List Char) : List Char :=
  if startsWithSeq fence l then (l.drop 3).dropWhile jsWs else l

/-- `replace(/\n?```\s*$/, '')`: if the string ends with a fence followed
only by whitespace, remove that suffix together with one optional newline
directly before the fence; otherwise unchanged. -/
def stripTrailFence (l : List Char) : List Char :=
  let r := dropTrail jsWs l
  if endsWithSeq fence r then
    let p := r.take (r.length - 3)
    if endsWithSeq ['\n'] p then p.take (p.length - 1) else p
  else l

/-- `replace(/^`+|`+$/g, '')`: remove the maximal leading and trailing
backtick runs. -/
def stripEdgeTicks (l : List Char) : List Char :=
  dropTrail isTick (l.dropWhile isTick)

/-- `replace(/`/g, '')`: remove every backtick. -/
def removeAllTicks (l : List Char) : List Char :=
  l.filter (fun c => !(isTick c))

/-- The lazy group of `(.*?)\n?```` ``` ``: scanning left to right, the
group ends at the first position where an optional newline followed by a
fence matches; `none` when no closing fence exists. -/
def lazyTail : List Char → Option (List Char)
  | [] => none
  | c :: cs =>
    if c = '\n' && startsWithSeq fence cs then some []
    else if startsWithSeq fence (c :: cs) then some []
    else
      match lazyTail cs with
      | some g => some (c :: g)
      | none => none

/-- Match ``/```(?:sql)?\s*\n?(.*?)\n?```/is`` anchored at the head of
`l`, returning capture group 1.  The greedy `(?:sql)?` and `\s*\n?` parts
never need backtracking for overall success (none of `s`,`q`,`l` or a
whitespace character can begin a fence), so they are taken maximally. -/
def matchFenceAt (l : List Char) : Option (List Char) :=
  if startsWithSeq fence l then
    let r0 := l.drop 3
    let r1 := if (r0.take 3).map Char.toLower = ['s', 'q', 'l'] then r0.drop 3 else r0
    lazyTail (r1.dropWhile jsWs)
  else none

/-- Leftmost match of the fence-extraction regex over the whole string
(JS `String.prototype.match`, group 1). -/
def searchFence : List Char → Option (List Char)
  | [] => none
  | c :: cs =>
    match matchFenceAt (c :: cs) with
    | some g => some g
    | none => searchFence cs

/-- Lines 776–785: the four chained `replace` calls followed by
`.trim()`. -/
def chainCleaned (sql : List Char) : List Char :=
  jsTrimL (stripEdgeTicks (stripTrailFence (stripLeadFence (stripLeadFenceSql sql))))

/-- Lines 787–797: if a fence survives anywhere, or a backtick survives at
the front, extract the fenced interior when the extraction regex matches
with a non-empty group (`backtickMatch && backtickMatch[1]`), else remove
every backtick; either way re-trim. -/
def branchCleaned (c : List Char) : List Char :=
  if hasSub fence c || startsWithSeq [tick] c then
    match searchFence c with
    | some g => if g.isEmpty then jsTrimL (removeAllTicks c) else jsTrimL g
    | none => jsTrimL (removeAllTicks c)
  else c

/-- Lines 799–802: if everything was stripped away, fall back to the
original trimmed text. -/
def afterFallback (sql : List Char) : List Char :=
  let c := branchCleaned (chainCleaned sql)
  if c.isEmpty then jsTrimL sql else c

/-- Lines 804–805, the final safety net: strip edge backtick runs once
more and trim. -/
def sanitizeL (sql : List Char) : List Char :=
  jsTrimL (stripEdgeTicks (afterFallback sql))

/-- The response sanitizer of `makeOllamaRequest` (`src/main.js`
lines 776–805) as a total function on strings. -/
def sanitize (sql : String) : String :=
  String.mk (sanitizeL sql.data)

/-! ## Pattern-match fallback translator (`translateSimplePattern`,
`src/main.js` lines 927–952) -/

/-- One entry of the table schema array handed to the translator; the JS
objects carry `name` and `type` fields. -/
structure Column where
  name : String
  ctype : String

/-- JS `\w` class: ASCII letters, digits, underscore. -/
def isWordChar (c : Char) : Bool :=
  ('a' ≤ c && c ≤ 'z') || ('A' ≤ c && c ≤ 'Z') || ('0' ≤ c && c ≤ '9') || c = '_'

/-- Quote class `['"]` of the where-extraction regex. -/
def isQuote (c : Char) : Bool := c = '\x27' || c = '"'

/-- The value part `\s*['"]?([^'"]+)['"]?` after the `=` sign.  The greedy
`\s*` first swallows the whole whitespace run; if the quote-optional
non-quote group then fails (next character missing or a quote following a
quote), the engine backtracks one whitespace character, which becomes the
(single-character) value group.  Validated against the reference regex
engine on the full construction. -/
def matchVal (r3 : List Char) : Option (List Char) :=
  let r := r3.dropWhile jsWs
  let fb : Option (List Char) :=
    match (r3.takeWhile jsWs).getLast? with
    | some c => some [c]
    | none => none
  match r with
  | [] => fb
  | c :: cs =>
    if isQuote c then
      let g := cs.takeWhile (fun x => !(isQuote x))
      if g.isEmpty then fb else some g
    else some ((c :: cs).takeWhile (fun x => !(isQuote x)))

/-- Match `/where\s+(\w+)\s*=\s*['"]?([^'"]+)['"]?/i` anchored at the head
of `l`, returning the column and value groups. -/
def matchWhereAt (l : List Char) : Option (List Char × List Char) :=
  if (l.take 5).map Char.toLower = ['w', 'h', 'e', 'r', 'e'] then
    let r0 := l.drop 5
    let r1 := r0.dropWhile jsWs
    if r1.length = r0.length then none
    else
      let col := r1.takeWhile isWordChar
      if col.isEmpty then none
      else
        match (r1.dropWhile isWordChar).dropWhile jsWs with
        | '=' :: r3 =>
          match matchVal r3 with
          | some v => some (col, v)
          | none => none
        | _ => none
  else none

/-- Leftmost match of the where-extraction regex (JS
`String.prototype.match`, groups 1 and 2). -/
def whereMatch : List Char → Option (List Char × List Char)
  | [] => none
  | c :: cs =>
    match matchWhereAt (c :: cs) with
    | some m => some m
    | none => whereMatch cs

/-- JS `String.prototype.toLowerCase` (ASCII range, per `Char.toLower`). -/
def jsToLower (s : String) : String :=
  String.mk (s.data.map Char.toLower)

/-- Substring test lifted to strings (JS `includes`). -/
def hasSubStr (s pat : String) : Bool :=
  hasSub pat.data s.data

/-- `translateSimplePattern(naturalLanguage, tableName, tableSchema)`
(`src/main.js` lines 927–952): deterministic rule-based fallback
translation.  The `columns` local of the source is computed but never
used. -/
def translateSimplePattern (naturalLanguage tableName : String)
    (tableSchema : List Column) : String :=
  let lower := jsToLower naturalLanguage
  let _columns := String.intercalate ", " (tableSchema.map (fun col => col.name))
  if hasSubStr lower "show all" || hasSubStr lower "select all" || hasSubStr lower "get all" then
    "SELECT * FROM \"" ++ tableName ++ "\""
  else if hasSubStr lower "count" then
    "SELECT COUNT(*) FROM \"" ++ tableName ++ "\""
  else if hasSubStr lower "where" then
    match whereMatch lower.data with
    | some (col, val) =>
      "SELECT * FROM \"" ++ tableName ++ "\" WHERE \"" ++ String.mk col
        ++ "\" = \x27" ++ String.mk val ++ "\x27"
    | none => "SELECT * FROM \"" ++ tableName ++ "\" WHERE 1=1"
  else "SELECT * FROM \"" ++ tableName ++ "\""

/-! ## Command cache (`get-sql-for-command` lines 537–573,
`insert-sql-into-commands-file` lines 575–614).  The `commands.txt` file
is modelled by its content string. -/

/-- JS `content.split('\n')`. -/
def splitNl : List Char → List (List Char)
  | [] => [[]]
  | c :: cs =>
    if c = '\n' then [] :: splitNl cs
    else
      match splitNl cs with
      | [] => [[c]]
      | l :: ls => (c :: l) :: ls

/-- JS `lines.join('\n')`. -/
def joinNl : List (List Char) → List Char
  | [] => []
  | [l] => l
  | l :: ls => l ++ '\n' :: joinNl ls

/-- Head test `trimmed.startsWith('[')` / bracket checks. -/
def headIs (c : Char) (l : List Char) : Bool := l.head? = some c

/-- `trimmed.endsWith(']')`. -/
def lastIs (c : Char) (l : List Char) : Bool := l.getLast? = some c

/-- JS `slice(1, -1)`: drop the first and last characters. -/
def slice1m1 (l : List Char) : List Char := (l.drop 1).dropLast

/-- The scan of `get-sql-for-command`: find the first line whose trimmed
text equals the command and is not itself a bracketed SQL line; if the
immediately following line is `[`…`]`, return the interior, else `null`. -/
def lookupLines (cmd : List Char) : List (List Char) → Option (List Char)
  | [] => none
  | l :: rest =>
    let t := jsTrimL l
    if t = cmd && !(headIs '[' t) then
      match rest with
      | [] => none
      | nxt :: _ =>
        let n := jsTrimL nxt
        if headIs '[' n && lastIs ']' n then some (slice1m1 n) else none
    else lookupLines cmd rest

/-- `get-sql-for-command` handler body (file exists, content given). -/
def getSqlForCommand (content commandText : String) : Option String :=
  (lookupLines commandText.data (splitNl content.data)).map String.mk

/-- The scan of `insert-sql-into-commands-file`: index of the first line
whose trimmed text equals the command and does not start with `[`. -/
def findCmdIndex (cmd : List Char) : List (List Char) → Option Nat
  | [] => none
  | l :: rest =>
    let t := jsTrimL l
    if t = cmd && !(headIs '[' t) then some 0
    else (findCmdIndex cmd rest).map (· + 1)

/-- JS `lines.splice(i + 1, 0, x)`: insert `x` directly after index `i`. -/
def spliceAfter (i : Nat) (x : List Char) (ls : List (List Char)) : List (List Char) :=
  ls.take (i + 1) ++ x :: ls.drop (i + 1)

/-- `insert-sql-into-commands-file` handler body (file exists, content
given): locate the command line, fail with the not-found error when
absent, otherwise insert `[sql]` directly after it and return the new
file content. -/
def insertSqlIntoCommandsFile (content commandText sql : String) :
    Except String String :=
  let lines := splitNl content.data
  match findCmdIndex commandText.data lines with
  | none =>
    Except.error ("Command text not found in commands.txt: \"" ++ commandText ++ "\"")
  | some i =>
    Except.ok (String.mk (joinNl (spliceAfter i ('[' :: sql.data ++ [']']) lines)))

/-! ## LLM request layer (`makeOllamaRequest` lines 752–856,
`testOllamaConnection` lines 52–79) and the IPC handlers
`translate-to-sql` (lines 858–925) and `test-ollama-connection`
(lines 616–642).  Transport outcomes are supplied by oracles; each
constructor corresponds to one disjoint code path of the source. -/

/-- Outcome of one HTTP POST to `/api/chat` as classified by
`makeOllamaRequest`: a 2xx reply whose JSON parsed with the
`message.content` field extracted (`success`), a 2xx reply whose body
failed to parse (`parseFail`, carrying the parser's message), a non-2xx
reply (`httpError`), or a transport-level failure. -/
inductive ReqResult where
  | success (content : String)
  | parseFail (emsg : String)
  | httpError (status : Nat) (statusMessage : String)
  | connRefused
  | timedOut
  | hostNotFound
  | connOther (code emsg : String)

/-- `makeOllamaRequest(host, port, …)` result: on a parsed 2xx reply the
trimmed content is required non-empty (an empty one is thrown and caught
by the parse handler, line 772–773) and then sanitized (lines 776–805);
every failure rejects with the exact message built by the source
(lines 815, 820, 832–839, 850 — note the timeout rejects with the literal
`OLLAMA_TIMEOUT`). -/
def makeOllamaRequest (host port : String) (r : ReqResult) : Except String String :=
  match r with
  | .success content =>
    let sql := String.mk (jsTrimL content.data)
    if sql = "" then
      Except.error "Failed to parse Ollama response: Empty response from Ollama"
    else Except.ok (sanitize sql)
  | .parseFail emsg => Except.error ("Failed to parse Ollama response: " ++ emsg)
  | .httpError status statusMessage =>
    Except.error ("Ollama API error: " ++ toString status ++ " " ++ statusMessage)
  | .connRefused => Except.error ("Connection refused to " ++ host ++ ":" ++ port)
  | .timedOut => Except.error "OLLAMA_TIMEOUT"
  | .hostNotFound => Except.error ("Host not found: " ++ host)
  | .connOther code emsg => Except.error ("Connection error (" ++ code ++ "): " ++ emsg)

/-- JS `process.env.X || 'default'`: an unset or empty environment
variable falls back to the default (empty strings are falsy). -/
def envOr (v : Option String) (d : String) : String :=
  match v with
  | none => d
  | some s => if s = "" then d else s

/-- JS `!process.env.X`: true when the variable is unset or empty. -/
def envFalsy (v : Option String) : Bool :=
  match v with
  | none => true
  | some s => s = ""

/-- The `translate-to-sql` handler (lines 858–925).  `oracle h p` is the
transport outcome of the POST to `h:p`.  Returns the SQL handed back to
the renderer together with the list of `(host, port)` LLM request
attempts, in order.  Faithful control flow: on any error from the
configured host, a single fallback request to `127.0.0.1` happens only
when no host was supplied by the environment, the host is the literal
`localhost`, and the error message contains `Connection refused`
(line 904); any remaining failure falls through — past a purely
diagnostic connection probe and an audit-log append, neither of which can
throw or alter the result — to `translateSimplePattern` (line 923). -/
def translateToSql (envHost envPort : Option String)
    (oracle : String → String → ReqResult)
    (naturalLanguage tableName : String) (tableSchema : List Column) :
    String × List (String × String) :=
  let ollamaHost := envOr envHost "localhost"
  let ollamaPort := envOr envPort "11434"
  match makeOllamaRequest ollamaHost ollamaPort (oracle ollamaHost ollamaPort) with
  | .ok response => (response, [(ollamaHost, ollamaPort)])
  | .error emsg =>
    if envFalsy envHost && ollamaHost = "localhost"
        && hasSub "Connection refused".data emsg.data then
      match makeOllamaRequest "127.0.0.1" ollamaPort (oracle "127.0.0.1" ollamaPort) with
      | .ok response =>
        (response, [(ollamaHost, ollamaPort), ("127.0.0.1", ollamaPort)])
      | .error _ =>
        (translateSimplePattern naturalLanguage tableName tableSchema,
          [(ollamaHost, ollamaPort), ("127.0.0.1", ollamaPort)])
    else
      (translateSimplePattern naturalLanguage tableName tableSchema,
        [(ollamaHost, ollamaPort)])

/-- Outcome of one probe GET to `/api/tags` (`testOllamaConnection`). -/
inductive ProbeOutcome where
  | reply (status : Nat) (body : String)
  | connError (code emsg : String)
  | timedOut

/-- Result object resolved by `testOllamaConnection` — it never rejects;
all outcomes are values. -/
structure ConnResult where
  success : Bool
  statusCode : Option Nat
  body : Option String
  errorCode : Option String
  message : Option String

/-- `testOllamaConnection(host, port)` (lines 52–79): success exactly on
HTTP 200; errors and timeout resolve with `success: false`. -/
def testOllamaConnection (r : ProbeOutcome) : ConnResult :=
  match r with
  | .reply status body =>
    { success := status = 200, statusCode := some status, body := some body,
      errorCode := none, message := none }
  | .connError code emsg =>
    { success := false, statusCode := none, body := none,
      errorCode := some code, message := some emsg }
  | .timedOut =>
    { success := false, statusCode := none, body := none,
      errorCode := some "ETIMEDOUT", message := some "Connection timeout" }

/-- The `test-ollama-connection` handler (lines 616–642): probe the
configured host; if that fails and no host was supplied by the
environment (so the host is the default `localhost`), probe `127.0.0.1`
once with the same port, returning its result only when it succeeds.
Returns the result together with the ordered `(host, port)` probe
attempts. -/
def testOllamaHandler (envHost envPort : Option String)
    (probe : String → String → ProbeOutcome) :
    ConnResult × List (String × String) :=
  let ollamaHost := envOr envHost "localhost"
  let ollamaPort := envOr envPort "11434"
  let result := testOllamaConnection (probe ollamaHost ollamaPort)
  if !result.success && envFalsy envHost && ollamaHost = "localhost" then
    let result127 := testOllamaConnection (probe "127.0.0.1" ollamaPort)
    if result127.success then
      (result127, [(ollamaHost, ollamaPort), ("127.0.0.1", ollamaPort)])
    else (result, [(ollamaHost, ollamaPort), ("127.0.0.1", ollamaPort)])
  else (result, [(ollamaHost, ollamaPort)])

/-! ## Supporting lemmas about the string primitives -/

theorem dropTrail_cons (p : Char → Bool) (c : Char) (cs : List Char) :
    dropTrail p (c :: cs) =
      match dropTrail p cs with
      | [] => if p c then [] else [c]
      | r => c :: r := rfl

theorem dropWhile_head_not {p : Char → Bool} :
    ∀ {l : List Char} {c : Char}, (l.dropWhile p).head? = some c → p c = false := by
  intro l
  induction l with
  | nil => intro c h; simp [List.dropWhile] at h
  | cons a as ih =>
    intro c h
    rw [List.dropWhile_cons] at h
    cases hpa : p a with
    | true => rw [hpa] at h; simp only [if_pos rfl] at h; exact ih h
    | false =>
      rw [hpa] at h
      simp only [Bool.false_eq_true, if_false, List.head?_cons, Option.some.injEq] at h
      rw [← h]; exact hpa

theorem dropTrail_getLast_not {p : Char → Bool} :
    ∀ {l : List Char} {c : Char}, (dropTrail p l).getLast? = some c → p c = false := by
  intro l
  induction l with
  | nil => intro c h; simp [dropTrail] at h
  | cons a as ih =>
    intro c h
    rw [dropTrail_cons] at h
    cases hd : dropTrail p as with
    | nil =>
      rw [hd] at h
      cases hpa : p a with
      | true => rw [hpa] at h; simp at h
      | false =>
        rw [hpa] at h
        simp only [Bool.false_eq_true, if_false] at h
        have : a = c := by simpa using h
        rw [← this]; exact hpa
    | cons r rs =>
      rw [hd] at h
      rw [List.getLast?_cons_cons] at h
      rw [← hd] at h
      exact ih h

theorem dropTrail_head? {p : Char → Bool} :
    ∀ {l : List Char} {c : Char}, (dropTrail p l).head? = some c → l.head? = some c := by
  intro l
  induction l with
  | nil => intro c h; simp [dropTrail] at h
  | cons a as _ =>
    intro c h
    rw [dropTrail_cons] at h
    cases hd : dropTrail p as with
    | nil =>
      rw [hd] at h
      cases hpa : p a with
      | true => rw [hpa] at h; simp at h
      | false =>
        rw [hpa] at h
        simp only [Bool.false_eq_true, if_false, List.head?_cons] at h ⊢
        simpa using h
    | cons r rs =>
      rw [hd] at h
      simp only [List.head?_cons] at h ⊢
      exact h

theorem dropTrail_eq_self {p : Char → Bool} :
    ∀ {l : List Char}, (∀ c, l.getLast? = some c → p c = false) → dropTrail p l = l := by
  intro l
  induction l with
  | nil => intro _; rfl
  | cons a as ih =>
    intro h
    rw [dropTrail_cons]
    cases as with
    | nil =>
      have hpa : p a = false := h a (by simp)
      simp [dropTrail, hpa]
    | cons b bs =>
      have h' : ∀ c, (b :: bs).getLast? = some c → p c = false := by
        intro c hc
        exact h c (by rw [List.getLast?_cons_cons]; exact hc)
      rw [ih h']

theorem dropWhile_eq_self_of_head {p : Char → Bool} {l : List Char}
    (h : ∀ c, l.head? = some c → p c = false) : l.dropWhile p = l := by
  cases l with
  | nil => rfl
  | cons a as =>
    have hpa : p a = false := h a rfl
    simp [List.dropWhile_cons, hpa]

theorem jsTrimL_head_not_ws {l : List Char} {c : Char}
    (h : (jsTrimL l).head? = some c) : jsWs c = false :=
  dropWhile_head_not (dropTrail_head? h)

theorem jsTrimL_getLast_not_ws {l : List Char} {c : Char}
    (h : (jsTrimL l).getLast? = some c) : jsWs c = false :=
  dropTrail_getLast_not h

theorem jsTrimL_of_trimmed {l : List Char}
    (h1 : ∀ c, l.head? = some c → jsWs c = false)
    (h2 : ∀ c, l.getLast? = some c → jsWs c = false) : jsTrimL l = l := by
  unfold jsTrimL
  rw [dropWhile_eq_self_of_head h1, dropTrail_eq_self h2]

theorem jsTrimL_idem (l : List Char) : jsTrimL (jsTrimL l) = jsTrimL l :=
  jsTrimL_of_trimmed (fun _ h => jsTrimL_head_not_ws h) (fun _ h => jsTrimL_getLast_not_ws h)

theorem startsWithSeq_head {a : Char} {pat l : List Char}
    (h : startsWithSeq (a :: pat) l = true) : l.head? = some a := by
  cases l with
  | nil => simp [startsWithSeq] at h
  | cons c cs =>
    have : a = c := by
      simp only [startsWithSeq, Bool.and_eq_true, decide_eq_true_eq] at h
      exact h.1
    rw [this]; rfl

theorem startsWithSeq_fence_head {l : List Char}
    (h : startsWithSeq fence l = true) : l.head? = some tick :=
  startsWithSeq_head h

theorem endsWithSeq_fence_getLast {l : List Char}
    (h : endsWithSeq fence l = true) : l.getLast? = some tick := by
  unfold endsWithSeq at h
  rw [← List.head?_reverse]
  exact startsWithSeq_head h

theorem stripEdgeTicks_head {l : List Char} {c : Char}
    (h : (stripEdgeTicks l).head? = some c) : isTick c = false :=
  dropWhile_head_not (dropTrail_head? h)

theorem stripEdgeTicks_getLast {l : List Char} {c : Char}
    (h : (stripEdgeTicks l).getLast? = some c) : isTick c = false :=
  dropTrail_getLast_not h

/-- A string that is already trimmed, has no backtick at either edge and
no surviving fence is a fixed point of the whole sanitizing pipeline:
every stripping stage leaves it unchanged. -/
theorem sanitizeL_fixpoint {l : List Char}
    (ht : jsTrimL l = l)
    (h1 : l.head? ≠ some tick)
    (h2 : l.getLast? ≠ some tick)
    (h3 : hasSub fence l = false) :
    sanitizeL l = l := by
  have hstart : startsWithSeq fence l = false := by
    cases hs : startsWithSeq fence l with
    | false => rfl
    | true => exact absurd (startsWithSeq_fence_head hs) h1
  have hstart1 : startsWithSeq [tick] l = false := by
    cases hs : startsWithSeq [tick] l with
    | false => rfl
    | true => exact absurd (startsWithSeq_head hs) h1
  have hhead_ws : ∀ c, l.head? = some c → jsWs c = false := by
    intro c hc; rw [← ht] at hc; exact jsTrimL_head_not_ws hc
  have hlast_ws : ∀ c, l.getLast? = some c → jsWs c = false := by
    intro c hc; rw [← ht] at hc; exact jsTrimL_getLast_not_ws hc
  have hdt : dropTrail jsWs l = l := dropTrail_eq_self hlast_ws
  have hends : endsWithSeq fence l = false := by
    cases hs : endsWithSeq fence l with
    | false => rfl
    | true => exact absurd (endsWithSeq_fence_getLast hs) h2
  have hs1 : stripLeadFenceSql l = l := by
    unfold stripLeadFenceSql; rw [hstart]; simp
  have hs2 : stripLeadFence l = l := by
    unfold stripLeadFence; rw [hstart]; simp
  have hs3 : stripTrailFence l = l := by
    simp only [stripTrailFence]; rw [hdt, hends]; simp
  have htick_head : ∀ c, l.head? = some c → isTick c = false := by
    intro c hc
    cases hti : isTick c with
    | false => rfl
    | true =>
      have : c = tick := by simpa [isTick] using hti
      rw [this] at hc; exact absurd hc h1
  have htick_last : ∀ c, l.getLast? = some c → isTick c = false := by
    intro c hc
    cases hti : isTick c with
    | false => rfl
    | true =>
      have : c = tick := by simpa [isTick] using hti
      rw [this] at hc; exact absurd hc h2
  have hs4 : stripEdgeTicks l = l := by
    unfold stripEdgeTicks
    rw [dropWhile_eq_self_of_head htick_head, dropTrail_eq_self htick_last]
  have hchain : chainCleaned l = l := by
    unfold chainCleaned; rw [hs1, hs2, hs3, hs4, ht]
  have hbranch : branchCleaned l = l := by
    unfold branchCleaned; rw [h3, hstart1]; simp
  have hfb : afterFallback l = l := by
    unfold afterFallback
    rw [hchain, hbranch]
    cases hl : l.isEmpty with
    | false => simp [hl]
    | true =>
      have : l = [] := by simpa using hl
      subst this; rfl
  unfold sanitizeL
  rw [hfb, hs4, ht]

/-! ## Supporting lemmas about the line-oriented cache -/

theorem splitNl_no_newline : ∀ (l : List Char), ∀ piece ∈ splitNl l, '\n' ∉ piece := by
  intro l
  induction l with
  | nil => intro piece hp; simp [splitNl] at hp; simp [hp]
  | cons c cs ih =>
    intro piece hp
    by_cases hc : c = '\n'
    · rw [splitNl, if_pos hc] at hp
      rcases List.mem_cons.mp hp with h | h
      · simp [h]
      · exact ih piece h
    · rw [splitNl, if_neg hc] at hp
      cases hd : splitNl cs with
      | nil =>
        rw [hd] at hp; simp at hp; subst hp
        simp only [List.mem_singleton]
        exact fun h' => hc h'.symm
      | cons p ps =>
        rw [hd] at hp
        rcases List.mem_cons.mp hp with h | h
        · subst h
          intro hmem
          rcases List.mem_cons.mp hmem with h' | h'
          · exact hc h'.symm
          · exact ih p (by rw [hd]; exact List.mem_cons_self p ps) h'
        · exact ih piece (by rw [hd]; exact List.mem_cons_of_mem p h)

theorem splitNl_single {l : List Char} (h : '\n' ∉ l) : splitNl l = [l] := by
  induction l with
  | nil => rfl
  | cons c cs ih =>
    have hc : ¬ c = '\n' := fun he => h (by rw [he]; exact List.mem_cons_self _ _)
    have hcs : '\n' ∉ cs := fun hm => h (List.mem_cons_of_mem c hm)
    rw [splitNl, if_neg hc, ih hcs]

theorem splitNl_append {l r : List Char} (h : '\n' ∉ l) :
    splitNl (l ++ '\n' :: r) = l :: splitNl r := by
  induction l with
  | nil => simp [splitNl]
  | cons c cs ih =>
    have hc : ¬ c = '\n' := fun he => h (by rw [he]; exact List.mem_cons_self _ _)
    have hcs : '\n' ∉ cs := fun hm => h (List.mem_cons_of_mem c hm)
    rw [List.cons_append, splitNl, if_neg hc, ih hcs]

theorem splitNl_joinNl :
    ∀ {ls : List (List Char)}, ls ≠ [] → (∀ piece ∈ ls, '\n' ∉ piece) →
      splitNl (joinNl ls) = ls := by
  intro ls
  induction ls with
  | nil => intro h _; exact absurd rfl h
  | cons l rest ih =>
    intro _ hnl
    cases rest with
    | nil => exact splitNl_single (hnl l (List.mem_cons_self _ _))
    | cons l2 ls2 =>
      have h1 : '\n' ∉ l := hnl l (List.mem_cons_self _ _)
      have h2 : ∀ piece ∈ l2 :: ls2, '\n' ∉ piece := by
        intro piece hp; exact hnl piece (List.mem_cons_of_mem l hp)
      show splitNl (l ++ '\n' :: joinNl (l2 :: ls2)) = l :: l2 :: ls2
      rw [splitNl_append h1, ih (by simp) h2]

theorem bracketLine_trim (sql : List Char) :
    jsTrimL ('[' :: sql ++ [']']) = '[' :: sql ++ [']'] := by
  apply jsTrimL_of_trimmed
  · intro c hc
    have : c = '[' := by simpa using hc.symm
    subst this; decide
  · intro c hc
    rw [List.getLast?_concat] at hc
    have : c = ']' := by simpa using hc.symm
    subst this; decide

theorem bracketLine_headIs (sql : List Char) :
    headIs '[' ('[' :: sql ++ [']']) = true := rfl

theorem bracketLine_lastIs (sql : List Char) :
    lastIs ']' ('[' :: sql ++ [']']) = true := by
  unfold lastIs
  rw [List.getLast?_concat]
  simp

theorem bracketLine_slice (sql : List Char) :
    slice1m1 ('[' :: sql ++ [']']) = sql := by
  unfold slice1m1
  simp [List.dropLast_concat]

theorem spliceAfter_zero (x l : List Char) (rest : List (List Char)) :
    spliceAfter 0 x (l :: rest) = l :: x :: rest := by
  simp [spliceAfter]

theorem spliceAfter_succ (j : Nat) (x l : List Char) (rest : List (List Char)) :
    spliceAfter (j + 1) x (l :: rest) = l :: spliceAfter j x rest := by
  simp [spliceAfter, List.take_succ_cons, List.drop_succ_cons]

theorem lookupLines_cons (cmd l : List Char) (rest : List (List Char)) :
    lookupLines cmd (l :: rest) =
      if (jsTrimL l = cmd && !headIs '[' (jsTrimL l)) = true then
        match rest with
        | [] => none
        | nxt :: _ =>
          if (headIs '[' (jsTrimL nxt) && lastIs ']' (jsTrimL nxt)) = true then
            some (slice1m1 (jsTrimL nxt))
          else none
      else lookupLines cmd rest := rfl

theorem lookupLines_spliceAfter {cmd sql : List Char} :
    ∀ {ls : List (List Char)} {i : Nat}, findCmdIndex cmd ls = some i →
      lookupLines cmd (spliceAfter i ('[' :: sql ++ [']']) ls) = some sql := by
  intro ls
  induction ls with
  | nil => intro i h; simp [findCmdIndex] at h
  | cons l rest ih =>
    intro i h
    rw [findCmdIndex] at h
    by_cases hm : (jsTrimL l = cmd && !headIs '[' (jsTrimL l)) = true
    · rw [if_pos hm] at h
      have hi : i = 0 := by injection h with h'; exact h'.symm
      subst hi
      rw [spliceAfter_zero, lookupLines_cons, if_pos hm]
      show (if (headIs '[' (jsTrimL ('[' :: sql ++ [']']))
              && lastIs ']' (jsTrimL ('[' :: sql ++ [']']))) = true then
          some (slice1m1 (jsTrimL ('[' :: sql ++ [']'])))
        else none) = some sql
      rw [bracketLine_trim, bracketLine_headIs, bracketLine_lastIs, bracketLine_slice]
      rfl
    · rw [if_neg hm] at h
      cases hj : findCmdIndex cmd rest with
      | none => rw [hj] at h; simp at h
      | some j =>
        rw [hj] at h
        have hi : i = j + 1 := by
          simp only [hj, Option.map_some'] at h
          injection h with h'; exact h'.symm
        subst hi
        rw [spliceAfter_succ, lookupLines_cons, if_neg hm]
        exact ih hj

theorem findCmdIndex_none {cmd : List Char} :
    ∀ {ls : List (List Char)}, (∀ piece ∈ ls, jsTrimL piece ≠ cmd) →
      findCmdIndex cmd ls = none := by
  intro ls
  induction ls with
  | nil => intro _; rfl
  | cons l rest ih =>
    intro h
    rw [findCmdIndex]
    have hne : jsTrimL l ≠ cmd := h l (List.mem_cons_self _ _)
    have hm : (jsTrimL l = cmd && !headIs '[' (jsTrimL l)) = false := by
      cases hd : decide (jsTrimL l = cmd) with
      | false => simp [decide_eq_false_iff_not.mp hd]
      | true => exact absurd (of_decide_eq_true hd) hne
    rw [hm]
    simp only [Bool.false_eq_true, if_false]
    rw [ih (fun piece hp => h piece (List.mem_cons_of_mem l hp))]
    rfl

theorem mem_spliceAfter_of_mem {x piece : List Char} {i : Nat}
    {ls : List (List Char)} (h : piece ∈ ls) : piece ∈ spliceAfter i x ls := by
  unfold spliceAfter
  rw [← List.take_append_drop (i + 1) ls] at h
  rcases List.mem_append.mp h with h' | h'
  · exact List.mem_append.mpr (Or.inl h')
  · exact List.mem_append.mpr (Or.inr (List.mem_cons_of_mem x h'))

theorem mem_of_mem_spliceAfter {x piece : List Char} {i : Nat}
    {ls : List (List Char)} (h : piece ∈ spliceAfter i x ls) :
    piece ∈ ls ∨ piece = x := by
  unfold spliceAfter at h
  rcases List.mem_append.mp h with h' | h'
  · exact Or.inl (List.mem_of_mem_take h')
  · rcases List.mem_cons.mp h' with h'' | h''
    · exact Or.inr h''
    · exact Or.inl (List.mem_of_mem_drop h'')

theorem spliceAfter_ne_nil (x : List Char) (i : Nat) (ls : List (List Char)) :
    spliceAfter i x ls ≠ [] := by
  unfold spliceAfter
  intro h
  have := congrArg List.length h
  simp at this

theorem insertSql_found {content cmd sql : String} {i : Nat}
    (hfound : findCmdIndex cmd.data (splitNl content.data) = some i) :
    insertSqlIntoCommandsFile content cmd sql =
      Except.ok (String.mk (joinNl (spliceAfter i ('[' :: sql.data ++ [']'])
        (splitNl content.data)))) := by
  simp only [insertSqlIntoCommandsFile]
  rw [hfound]

theorem store_then_split {content sql : String} {i : Nat}
    (hnl : '\n' ∉ sql.data) :
    splitNl (String.mk (joinNl (spliceAfter i ('[' :: sql.data ++ [']'])
        (splitNl content.data)))).data =
      spliceAfter i ('[' :: sql.data ++ [']']) (splitNl content.data) := by
  show splitNl (joinNl (spliceAfter i ('[' :: sql.data ++ [']']) (splitNl content.data)))
      = spliceAfter i ('[' :: sql.data ++ [']']) (splitNl content.data)
  apply splitNl_joinNl (spliceAfter_ne_nil _ _ _)
  intro piece hp
  rcases mem_of_mem_spliceAfter hp with h | h
  · exact splitNl_no_newline _ piece h
  · subst h
    intro hmem
    rcases List.mem_append.mp hmem with h' | h'
    · rcases List.mem_cons.mp h' with h'' | h''
      · exact absurd h'' (by decide)
      · exact hnl h''
    · rw [List.mem_singleton] at h'
      exact absurd h' (by decide)

theorem lookup_insert {content cmd sql : String} {i : Nat}
    (hfound : findCmdIndex cmd.data (splitNl content.data) = some i)
    (hnl : '\n' ∉ sql.data) :
    getSqlForCommand (String.mk (joinNl (spliceAfter i ('[' :: sql.data ++ [']'])
      (splitNl content.data)))) cmd = some sql := by
  unfold getSqlForCommand
  rw [store_then_split hnl, lookupLines_spliceAfter hfound]
  rfl

/-! ## The claims -/

/-- C1: for every environment configuration, natural-language input, table
name and schema, if every LLM request the orchestrator can issue fails (on
the configured host and on the fallback host alike), `translate-to-sql`
still returns the deterministic pattern-match SQL — the model is a total
function, so no LLM-path error is surfaced to the caller. -/
theorem C1_llm_failure_falls_back_to_pattern
    (envHost envPort : Option String) (oracle : String → String → ReqResult)
    (nl t : String) (sch : List Column)
    (hfail : ∀ h p, ∃ e, makeOllamaRequest h p (oracle h p) = Except.error e) :
    (translateToSql envHost envPort oracle nl t sch).1 =
      translateSimplePattern nl t sch := by
  obtain ⟨e1, he1⟩ := hfail (envOr envHost "localhost") (envOr envPort "11434")
  obtain ⟨e2, he2⟩ := hfail "127.0.0.1" (envOr envPort "11434")
  simp only [translateToSql, he1]
  split
  · simp only [he2]
  · rfl

/-- Witness for C1: with every request refused and default configuration,
the handler returns exactly the pattern-match SQL. -/
theorem C1_llm_failure_falls_back_to_pattern_w :
    (translateToSql none none (fun _ _ => ReqResult.connRefused)
        "show all rows" "t" []).1 =
      translateSimplePattern "show all rows" "t" [] :=
  C1_llm_failure_falls_back_to_pattern none none (fun _ _ => ReqResult.connRefused)
    "show all rows" "t" [] (fun _ _ => ⟨_, rfl⟩)

/-- C2 counterexample: with the default `localhost` configuration and a
failing first attempt (a timeout), the `translate-to-sql` handler makes no
retry against `127.0.0.1` — refuting the claim that every failure of the
defaulted host is retried once against `127.0.0.1`. -/
theorem C2_counterexample :
    (translateToSql none none (fun _ _ => ReqResult.timedOut)
        "show all rows" "t" []).2 = [("localhost", "11434")] ∧
    ("127.0.0.1", "11434") ∉
      (translateToSql none none (fun _ _ => ReqResult.timedOut)
        "show all rows" "t" []).2 := by
  constructor
  · rfl
  · decide

/-- C2 (amended): host fallback, as the code implements it.  (i) In the
`test-ollama-connection` handler, any failing probe under a defaulted
host triggers exactly one retry against `127.0.0.1` with the same port.
(ii) In `translate-to-sql`, a failure of the defaulted host triggers that
single retry only when the error message contains `Connection refused`;
(iii) any other failure kind gives up without touching `127.0.0.1`.
(iv) With an explicitly supplied (non-empty) host, neither handler ever
attempts `127.0.0.1`, whatever the failure kind. -/
theorem C2_host_fallback_amended :
    (∀ (envPort : Option String) (probe : String → String → ProbeOutcome),
      (testOllamaConnection (probe "localhost" (envOr envPort "11434"))).success = false →
      (testOllamaHandler none envPort probe).2 =
        [("localhost", envOr envPort "11434"), ("127.0.0.1", envOr envPort "11434")]) ∧
    (∀ (envPort : Option String) (oracle : String → String → ReqResult)
        (nl t : String) (sch : List Column) (e : String),
      makeOllamaRequest "localhost" (envOr envPort "11434")
          (oracle "localhost" (envOr envPort "11434")) = Except.error e →
      hasSub "Connection refused".data e.data = true →
      (translateToSql none envPort oracle nl t sch).2 =
        [("localhost", envOr envPort "11434"), ("127.0.0.1", envOr envPort "11434")]) ∧
    (∀ (envPort : Option String) (oracle : String → String → ReqResult)
        (nl t : String) (sch : List Column) (e : String),
      makeOllamaRequest "localhost" (envOr envPort "11434")
          (oracle "localhost" (envOr envPort "11434")) = Except.error e →
      hasSub "Connection refused".data e.data = false →
      (translateToSql none envPort oracle nl t sch).2 =
        [("localhost", envOr envPort "11434")]) ∧
    (∀ (h : String) (envPort : Option String) (oracle : String → String → ReqResult)
        (probe : String → String → ProbeOutcome) (nl t : String) (sch : List Column),
      h ≠ "" →
      (translateToSql (some h) envPort oracle nl t sch).2 = [(h, envOr envPort "11434")] ∧
      (testOllamaHandler (some h) envPort probe).2 = [(h, envOr envPort "11434")]) := by
  refine ⟨?_, ?_, ?_, ?_⟩
  · intro envPort probe hfail
    simp only [testOllamaHandler]
    generalize envOr envPort "11434" = p at hfail ⊢
    simp only [show envOr none "localhost" = "localhost" from rfl, hfail, envFalsy]
    simp only [Bool.not_false, Bool.true_and, Bool.and_true, decide_True, if_true]
    split <;> rfl
  · intro envPort oracle nl t sch e he hc
    simp only [translateToSql]
    generalize envOr envPort "11434" = p at he ⊢
    simp only [show envOr none "localhost" = "localhost" from rfl, he, hc, envFalsy]
    simp only [Bool.true_and, Bool.and_true, decide_True, if_true]
    split <;> rfl
  · intro envPort oracle nl t sch e he hc
    simp only [translateToSql]
    generalize envOr envPort "11434" = p at he ⊢
    simp only [show envOr none "localhost" = "localhost" from rfl, he, hc, envFalsy]
    simp
  · intro h envPort oracle probe nl t sch hne
    have hfalsy : envFalsy (some h) = false := by simp [envFalsy, hne]
    have hOr : envOr (some h) "localhost" = h := by simp [envOr, hne]
    constructor
    · simp only [translateToSql]
      generalize envOr envPort "11434" = p
      rw [hOr]
      cases h2 : makeOllamaRequest h p (oracle h p) <;> simp [h2, hfalsy]
    · simp only [testOllamaHandler]
      generalize envOr envPort "11434" = p
      rw [hOr]
      simp [hfalsy]

/-- Witness for C2 (amended): each of the four cases evaluated at a
concrete oracle. -/
theorem C2_host_fallback_amended_w :
    (testOllamaHandler none none (fun _ _ => ProbeOutcome.timedOut)).2 =
      [("localhost", "11434"), ("127.0.0.1", "11434")] ∧
    (translateToSql none none (fun _ _ => ReqResult.connRefused) "x" "t" []).2 =
      [("localhost", "11434"), ("127.0.0.1", "11434")] ∧
    (translateToSql none none (fun _ _ => ReqResult.timedOut) "x" "t" []).2 =
      [("localhost", "11434")] ∧
    (translateToSql (some "h1") none (fun _ _ => ReqResult.timedOut) "x" "t" []).2 =
      [("h1", "11434")] ∧
    (testOllamaHandler (some "h1") none (fun _ _ => ProbeOutcome.timedOut)).2 =
      [("h1", "11434")] :=
  ⟨C2_host_fallback_amended.1 none (fun _ _ => ProbeOutcome.timedOut) (by decide),
   C2_host_fallback_amended.2.1 none (fun _ _ => ReqResult.connRefused) "x" "t" []
     "Connection refused to localhost:11434" rfl (by decide),
   C2_host_fallback_amended.2.2.1 none (fun _ _ => ReqResult.timedOut) "x" "t" []
     "OLLAMA_TIMEOUT" rfl (by decide),
   (C2_host_fallback_amended.2.2.2 "h1" none (fun _ _ => ReqResult.timedOut)
     (fun _ _ => ProbeOutcome.timedOut) "x" "t" [] (by decide)).1,
   (C2_host_fallback_amended.2.2.2 "h1" none (fun _ _ => ReqResult.timedOut)
     (fun _ _ => ProbeOutcome.timedOut) "x" "t" [] (by decide)).2⟩

/-- C3 counterexample: with the cache holding `cmd` followed by `[A]`, a
second `store` call is neither rejected nor a no-op: it succeeds,
inserting `[B]` directly after the command line, and `lookup` afterwards
returns `B`, not the first stored SQL `A`. -/
theorem C3_counterexample :
    getSqlForCommand "cmd\n[A]" "cmd" = some "A" ∧
    insertSqlIntoCommandsFile "cmd\n[A]" "cmd" "B" = Except.ok "cmd\n[B]\n[A]" ∧
    getSqlForCommand "cmd\n[B]\n[A]" "cmd" = some "B" := by
  refine ⟨by decide, by rfl, by decide⟩

/-- C3 (amended): a second `store` for a command that already has a
bracketed SQL line succeeds and inserts the new bracketed line directly
after the command line; `lookup` then returns the newly stored SQL (the
second one), while every original line — the first stored SQL line
included — is still present in the file: the first entry is shadowed, not
removed, and no longer returned by `lookup`. -/
theorem C3_second_store_shadows_first (content cmd sqlOld sqlNew : String) (i : Nat)
    (hfound : findCmdIndex cmd.data (splitNl content.data) = some i)
    (_hold : getSqlForCommand content cmd = some sqlOld)
    (hnl : '\n' ∉ sqlNew.data) :
    ∃ content2 : String,
      insertSqlIntoCommandsFile content cmd sqlNew = Except.ok content2 ∧
      getSqlForCommand content2 cmd = some sqlNew ∧
      ∀ piece ∈ splitNl content.data, piece ∈ splitNl content2.data := by
  refine ⟨_, insertSql_found hfound, lookup_insert hfound hnl, ?_⟩
  intro piece hp
  rw [store_then_split hnl]
  exact mem_spliceAfter_of_mem hp

/-- Witness for C3 (amended), on the concrete two-line cache. -/
theorem C3_second_store_shadows_first_w :
    ∃ content2 : String,
      insertSqlIntoCommandsFile "cmd\n[OLD]" "cmd" "NEW" = Except.ok content2 ∧
      getSqlForCommand content2 "cmd" = some "NEW" ∧
      ∀ piece ∈ splitNl "cmd\n[OLD]".data, piece ∈ splitNl content2.data :=
  C3_second_store_shadows_first "cmd\n[OLD]" "cmd" "OLD" "NEW" 0
    (by decide) (by decide) (by decide)

/-- C4 counterexample: the round trip fails when the stored SQL contains a
newline.  With the single-line cache `cmd` (command present, no SQL
attached), `store("cmd", "a\nb")` succeeds, but `lookup("cmd")` on the
result returns `none` rather than the stored SQL, because the bracketed
line was split in two by the embedded newline. -/
theorem C4_counterexample :
    findCmdIndex "cmd".data (splitNl "cmd".data) = some 0 ∧
    getSqlForCommand "cmd" "cmd" = none ∧
    insertSqlIntoCommandsFile "cmd" "cmd" "a\nb" = Except.ok "cmd\n[a\nb]" ∧
    getSqlForCommand "cmd\n[a\nb]" "cmd" = none := by
  refine ⟨by decide, by decide, by rfl, by decide⟩

/-- C4 (amended): (i) for every cache state in which the command occurs as
a plain line (first structural match) with no bracketed SQL attached, and
every SQL string containing no newline character, `store` then `lookup`
round-trips to exactly that SQL; (ii) for every state with no line whose
trimmed text equals the command, `store` fails with the not-found error
(before any write, so the file is unchanged). -/
theorem C4_cache_round_trip_amended :
    (∀ (content cmd sql : String) (i : Nat),
      findCmdIndex cmd.data (splitNl content.data) = some i →
      getSqlForCommand content cmd = none →
      '\n' ∉ sql.data →
      ∃ content2 : String,
        insertSqlIntoCommandsFile content cmd sql = Except.ok content2 ∧
        getSqlForCommand content2 cmd = some sql) ∧
    (∀ content cmd sql : String,
      (∀ piece ∈ splitNl content.data, jsTrimL piece ≠ cmd.data) →
      insertSqlIntoCommandsFile content cmd sql =
        Except.error ("Command text not found in commands.txt: \"" ++ cmd ++ "\"")) := by
  constructor
  · intro content cmd sql i hfound _ hnl
    exact ⟨_, insertSql_found hfound, lookup_insert hfound hnl⟩
  · intro content cmd sql hmiss
    simp only [insertSqlIntoCommandsFile]
    rw [findCmdIndex_none hmiss]

/-- Witness for C4 (amended): both parts at concrete cache states. -/
theorem C4_cache_round_trip_amended_w :
    (∃ content2 : String,
      insertSqlIntoCommandsFile "cmd" "cmd" "SELECT 1" = Except.ok content2 ∧
      getSqlForCommand content2 "cmd" = some "SELECT 1") ∧
    insertSqlIntoCommandsFile "other" "cmd" "SELECT 1" =
      Except.error ("Command text not found in commands.txt: \"" ++ "cmd" ++ "\"") :=
  ⟨C4_cache_round_trip_amended.1 "cmd" "cmd" "SELECT 1" 0 (by decide) (by decide) (by decide),
   C4_cache_round_trip_amended.2 "other" "cmd" "SELECT 1" (by decide)⟩

/-- C5 counterexample: the sanitizer can return a string ending in a
backtick.  On input `` a` ` `` (letter, backtick, space, backtick,
space), the chain leaves `` a` ` `` whose trailing backtick run is
stripped and then re-exposed by the final trim: the result is `` a` ``,
whose last character is a backtick — refuting the guarantee that the
output never has a backtick at position 0 or at the end. -/
theorem C5_counterexample :
    sanitize "a\x60 \x60 " = "a\x60" ∧
    (sanitize "a\x60 \x60 ").data.getLast? = some tick := by
  refine ⟨by decide, by decide⟩

/-- C5 (amended): the sanitizer never raises (it is a total function),
and whenever the final trim has nothing to remove — i.e. stripping the
edge backtick runs of the value entering the final safety step leaves an
already-trimmed string — the result has no backtick at position 0 or at
the last position.  (The final trim can otherwise re-expose an interior
backtick at a boundary, as the counterexample shows.) -/
theorem C5_no_edge_backtick_amended (x : String)
    (h : jsTrimL (stripEdgeTicks (afterFallback x.data)) =
      stripEdgeTicks (afterFallback x.data)) :
    (sanitize x).data.head? ≠ some tick ∧
    (sanitize x).data.getLast? ≠ some tick := by
  have hd : (sanitize x).data = jsTrimL (stripEdgeTicks (afterFallback x.data)) := rfl
  rw [hd, h]
  constructor
  · intro hc
    have := stripEdgeTicks_head hc
    simp [isTick] at this
  · intro hc
    have := stripEdgeTicks_getLast hc
    simp [isTick] at this

/-- Witness for C5 (amended) on a plain response. -/
theorem C5_no_edge_backtick_amended_w :
    jsTrimL (stripEdgeTicks (afterFallback "SELECT 1".data)) =
      stripEdgeTicks (afterFallback "SELECT 1".data) ∧
    ((sanitize "SELECT 1").data.head? ≠ some tick ∧
      (sanitize "SELECT 1").data.getLast? ≠ some tick) :=
  ⟨by decide, C5_no_edge_backtick_amended "SELECT 1" (by decide)⟩

/-- C6 counterexample: the sanitizer is not idempotent.  On `` a` ` ``
the first pass returns `` a` `` and the second pass strips the now-edge
backtick, returning `a`. -/
theorem C6_counterexample :
    sanitize (sanitize "a\x60 \x60 ") ≠ sanitize "a\x60 \x60 " := by decide

set_option maxHeartbeats 1000000 in
/-- C6 (amended): the sanitizer is idempotent on every input whose first
sanitization carries no backtick at either edge and no surviving
triple-backtick fence — the conditions under which every stripping stage
is the identity on the output; idempotence can fail when an edge backtick
survives (see the counterexample). -/
theorem C6_idempotent_amended (x : String)
    (h1 : (sanitize x).data.head? ≠ some tick)
    (h2 : (sanitize x).data.getLast? ≠ some tick)
    (h3 : hasSub fence (sanitize x).data = false) :
    sanitize (sanitize x) = sanitize x := by
  have ht : jsTrimL (sanitizeL x.data) = sanitizeL x.data :=
    jsTrimL_idem (stripEdgeTicks (afterFallback x.data))
  show String.mk (sanitizeL (sanitizeL x.data)) = String.mk (sanitizeL x.data)
  rw [sanitizeL_fixpoint ht h1 h2 h3]

/-- Witness for C6 (amended) on the fenced scenario response. -/
theorem C6_idempotent_amended_w :
    sanitize (sanitize "\x60\x60\x60sql\nSELECT * FROM t\n\x60\x60\x60") =
      sanitize "\x60\x60\x60sql\nSELECT * FROM t\n\x60\x60\x60" :=
  C6_idempotent_amended "\x60\x60\x60sql\nSELECT * FROM t\n\x60\x60\x60"
    (by decide) (by decide) (by decide)

/-- C7 counterexample: on input `` ` `` (one backtick) every stripping
step leaves the empty string, the fallback restores the trimmed original
`` ` ``, but the final safety step strips it again, so the sanitizer
returns the empty string for a non-empty (after trimming) input — not
the original trimmed raw text. -/
theorem C7_counterexample :
    branchCleaned (chainCleaned "\x60".data) = [] ∧
    jsTrimL "\x60".data ≠ [] ∧
    sanitize "\x60" = "" := by
  refine ⟨by decide, by decide, by decide⟩

/-- C7 (amended): when all stripping steps leave the empty string, the
sanitizer restores the original trimmed raw text but then applies the
final edge-backtick strip and trim to it; the result is therefore
`trim(stripTicks(trim(x)))`, which is empty — rather than the trimmed
original — exactly when the trimmed input is nothing but edge backtick
runs around whitespace. -/
theorem C7_empty_fallback_amended (x : String)
    (h : branchCleaned (chainCleaned x.data) = []) :
    sanitize x = String.mk (jsTrimL (stripEdgeTicks (jsTrimL x.data))) := by
  show String.mk (jsTrimL (stripEdgeTicks (afterFallback x.data))) = _
  unfold afterFallback
  rw [h]
  rfl

/-- Witness for C7 (amended) at the counterexample input. -/
theorem C7_empty_fallback_amended_w :
    branchCleaned (chainCleaned "\x60".data) = [] ∧
    sanitize "\x60" = String.mk (jsTrimL (stripEdgeTicks (jsTrimL "\x60".data))) :=
  ⟨by decide, C7_empty_fallback_amended "\x60" (by decide)⟩

/-- C8 counterexample: an input containing both `count` and `where` is
not always resolved by the count branch — the show/select/get-all branch
is checked first.  `"show all where count"` contains both keywords yet
returns `SELECT * FROM "t"`, not `SELECT COUNT(*) FROM "t"`. -/
theorem C8_counterexample :
    hasSubStr (jsToLower "show all where count") "count" = true ∧
    hasSubStr (jsToLower "show all where count") "where" = true ∧
    translateSimplePattern "show all where count" "t" [] = "SELECT * FROM \"t\"" ∧
    translateSimplePattern "show all where count" "t" [] ≠
      "SELECT COUNT(*) FROM \"t\"" := by
  refine ⟨by decide, by decide, by decide, by decide⟩

/-- C8 (amended): the branch order is fixed — show/select/get all, then
count, then where, then the default — so every input containing `count`
(case-insensitively) and none of `show all` / `select all` / `get all`
resolves via the count branch to `SELECT COUNT(*) FROM "<table>"`,
whether or not it also contains `where`. -/
theorem C8_count_precedence_amended (nl t : String) (sch : List Column)
    (hc : hasSubStr (jsToLower nl) "count" = true)
    (h1 : hasSubStr (jsToLower nl) "show all" = false)
    (h2 : hasSubStr (jsToLower nl) "select all" = false)
    (h3 : hasSubStr (jsToLower nl) "get all" = false) :
    translateSimplePattern nl t sch = "SELECT COUNT(*) FROM \"" ++ t ++ "\"" := by
  simp [translateSimplePattern, h1, h2, h3, hc]

/-- Witness for C8 (amended) at the claim's own example input. -/
theorem C8_count_precedence_amended_w :
    translateSimplePattern "count rows where age = 5" "t" [] =
      "SELECT COUNT(*) FROM \"" ++ "t" ++ "\"" :=
  C8_count_precedence_amended "count rows where age = 5" "t" []
    (by decide) (by decide) (by decide) (by decide)

/-- C9: on the where branch (input contains `where` and none of the
earlier keywords), the translator emits
`SELECT * FROM "<table>" WHERE "<column>" = '<value>'` when the
`where <word> = <value>` pattern matches on the lowercased input, and the
inert `SELECT * FROM "<table>" WHERE 1=1` when it does not. -/
theorem C9_where_branch (nl t : String) (sch : List Column)
    (h1 : hasSubStr (jsToLower nl) "show all" = false)
    (h2 : hasSubStr (jsToLower nl) "select all" = false)
    (h3 : hasSubStr (jsToLower nl) "get all" = false)
    (hc : hasSubStr (jsToLower nl) "count" = false)
    (hw : hasSubStr (jsToLower nl) "where" = true) :
    (∀ col val, whereMatch (jsToLower nl).data = some (col, val) →
      translateSimplePattern nl t sch =
        "SELECT * FROM \"" ++ t ++ "\" WHERE \"" ++ String.mk col
          ++ "\" = \x27" ++ String.mk val ++ "\x27") ∧
    (whereMatch (jsToLower nl).data = none →
      translateSimplePattern nl t sch =
        "SELECT * FROM \"" ++ t ++ "\" WHERE 1=1") := by
  constructor
  · intro col val hm
    simp [translateSimplePattern, h1, h2, h3, hc, hw, hm]
  · intro hm
    simp [translateSimplePattern, h1, h2, h3, hc, hw, hm]

/-- Witness for C9 at the claim's example: `"show rows where status =
active"` extracts column `status` and value `active`. -/
theorem C9_where_branch_w :
    translateSimplePattern "show rows where status = active" "t" [] =
      "SELECT * FROM \"" ++ "t" ++ "\" WHERE \"" ++ String.mk "status".data
        ++ "\" = \x27" ++ String.mk "active".data ++ "\x27" :=
  (C9_where_branch "show rows where status = active" "t" []
      (by decide) (by decide) (by decide) (by decide) (by decide)).1
    "status".data "active".data (by decide)

/-- C10: the where-clause extraction runs on the lowercased copy of the
input — the translator's output depends only on `toLowerCase` of the
natural-language text (and the table name), so the emitted column and
value are the lowercased forms of what the user typed; in particular
`"show rows where Status = Active"` yields
`SELECT * FROM "t" WHERE "status" = 'active'`, the original letter case
of column and value being lost. -/
theorem C10_lowercased_extraction :
    (∀ (nl1 nl2 t : String) (sch : List Column), jsToLower nl1 = jsToLower nl2 →
      translateSimplePattern nl1 t sch = translateSimplePattern nl2 t sch) ∧
    translateSimplePattern "show rows where Status = Active" "t" [] =
      "SELECT * FROM \"t\" WHERE \"status\" = \x27active\x27" := by
  constructor
  · intro nl1 nl2 t sch h
    simp only [translateSimplePattern]
    rw [h]
  · decide

/-- Witness for C10: two inputs differing only in case translate
identically. -/
theorem C10_lowercased_extraction_w :
    translateSimplePattern "COUNT x" "t" [] = translateSimplePattern "count X" "t" [] :=
  C10_lowercased_extraction.1 "COUNT x" "count X" "t" [] (by decide)

end SqlTable
